import Mathlib

/-!
Verification of the Collatz work-distribution scripts
(`dcp/2024-10-28/python/`: `collatz.py`, `claude_flask.py`, `async_collatz.py`,
`claude_asyncio.py`, `claude_asyncio_w_worker_stats.py`, `test_collatz.py`).

The Python integers are modelled by `Int` (arbitrary precision, like Python's).
The `while` loops of the Collatz computations are modelled with an explicit
fuel parameter: `none` means the loop has not finished within `fuel`
iterations, so "`= none` for every fuel" is non-termination.

`collatz.py`'s `seq` halves an even value with `int(results[-1] / 2)`:
Python `/` on two ints produces the IEEE-754 double nearest to the true
quotient (round half to even), and `int` truncates it.  For an even value
`x` the true quotient `x / 2` is an integer, so the result is that integer
rounded to 53 significant bits.  This rounding is modelled exactly by
`pyFloatRound` (values beyond the double overflow threshold 2^1024 do not
occur in any statement proved here).  `claude_flask.py`'s
`calculate_collatz` instead uses `current // 2`, Python's floor division,
which is exact; on `Int` with a positive divisor, Lean's `/` (Euclidean
division) coincides with floor division, so `x / 2` models `x // 2`.
Python's `%` with a positive modulus is nonnegative, as is Lean's `%` on
`Int` (Euclidean remainder), so `x % 2` models `x % 2`.
-/

/-- Errors of the Python runtime and of the remote backend that the scripts
can meet: `ValueError` (raised by `max` on an empty sequence and by `int` on
a non-numeric string), `ZeroDivisionError`, `OverflowError`, and an HTTP
error raised by `response.raise_for_status()` in the asyncio clients. -/
inductive PyError where
  | valueError
  | zeroDivisionError
  | overflowError
  | httpError
deriving DecidableEq, Repr

/-- Floor of the base-2 logarithm, computed with a structural fuel argument
so that the kernel can evaluate it; `log2floor f n` is the true floor
logarithm whenever `f ≥ n ≥ 1` (the recursion halves `n` each step). -/
def log2floor : Nat → Nat → Nat
  | 0, _ => 0
  | f + 1, n => if n ≤ 1 then 0 else log2floor f (n / 2) + 1

/-- Nearest IEEE-754 double to the natural number `m` (round half to even),
for `m` below the overflow threshold.  A natural number of at most 53
significant bits is represented exactly; otherwise the low
`bitlength - 53` bits are rounded away, ties going to the even mantissa. -/
def pyFloatRound (m : Nat) : Nat :=
  if m ≤ 2 ^ 53 then m
  else
    let k := log2floor m m - 52
    let q := m / 2 ^ k
    let r := m % 2 ^ k
    let half := 2 ^ (k - 1)
    if r < half then q * 2 ^ k
    else if half < r then (q + 1) * 2 ^ k
    else if q % 2 = 0 then q * 2 ^ k else (q + 1) * 2 ^ k

/-- Model of Python's `int(x / 2)` for an even integer `x` (`collatz.py`
line 9 and `async_collatz.py` line 25): the exact half, rounded to the
nearest double, then truncated (truncation is the identity on a double
holding an integer). -/
def pydiv2 (x : Int) : Int :=
  let m := x / 2
  if 0 ≤ m then (pyFloatRound m.toNat : Int) else -(pyFloatRound (-m).toNat : Int)

/-- One iteration of the loop body of `collatz.py`'s `seq` (identically
`async_collatz.py`'s `seq`): halve via float division when even, else
`3 * x + 1`. -/
def pyStep (x : Int) : Int := if x % 2 = 0 then pydiv2 x else 3 * x + 1

/-- One iteration of the loop body of `claude_flask.py`'s
`calculate_collatz`: `current // 2` when even (exact), else
`3 * current + 1`. -/
def exactStep (x : Int) : Int := if x % 2 = 0 then x / 2 else 3 * x + 1

/-- The `while results[-1] != 1` loop shared by `seq` and
`calculate_collatz`: starting from `x`, emit `x` and iterate `step` until
the value `1` is reached (inclusive).  `none` when `fuel` iterations do not
reach `1`. -/
def collatzFrom (step : Int → Int) : Nat → Int → Option (List Int)
  | 0, x => if x = 1 then some [1] else none
  | fuel + 1, x => if x = 1 then some [1] else (collatzFrom step fuel (step x)).map (x :: ·)

/-- Model of `collatz.py` lines 5-13 (`seq`), whose body `async_collatz.py`
lines 21-29 repeats verbatim: no input validation, float halving. -/
def seq (fuel : Nat) (n : Int) : Option (List Int) := collatzFrom pyStep fuel n

/-- Model of `claude_flask.py` lines 7-30 (`calculate_collatz`): returns
`[]` when `n <= 0`, otherwise runs the loop with exact floor halving. -/
def calculate_collatz (fuel : Nat) (n : Int) : Option (List Int) :=
  if n ≤ 0 then some [] else collatzFrom exactStep fuel n

/-- The local variant terminates on `n`: some fuel suffices for `seq` to
return a list. -/
def seqTerminates (n : Int) : Prop := ∃ fuel L, seq fuel n = some L

/-- The `Result` namedtuple of `collatz.py` line 3: `Result = namedtuple('Result', 'num seq')`. -/
structure Result where
  num : Int
  seq : List Int
deriving DecidableEq, Repr

/-- Model of `collatz.py` lines 16-23 (`longest_collatz`): starting from the
sentinel `Result(0, [])`, scan `n = 1 .. size` and replace the current best
exactly when the new sequence is strictly longer.  `none` when some call of
`seq` does not finish within `fuel`. -/
def longest_collatz (fuel : Nat) (size : Nat) : Option Result :=
  (List.range size).foldl
    (fun acc k =>
      match acc with
      | none => none
      | some r =>
        match seq fuel ((k + 1 : Nat) : Int) with
        | none => none
        | some s => some (if s.length > r.seq.length then ⟨(k + 1 : Nat), s⟩ else r))
    (some ⟨0, []⟩)

/-- The `CollatzResult` dataclass of `claude_asyncio.py` lines 10-14. -/
structure CollatzResult where
  number : Int
  sequence : List Int
  sequence_length : Nat
deriving DecidableEq, Repr

/-- One comparison step of CPython's `max(iterable, key=f)`: the running
best is replaced only when the new key is strictly greater, so the first
maximal element is kept. -/
def maxStep {α : Type} (key : α → Nat) : α → α → α :=
  fun best y => if key y > key best then y else best

/-- Model of Python's `max(l, key=f)`: raises `ValueError` on an empty
sequence, otherwise folds `maxStep` from the first element. -/
def pyMaxKey {α : Type} (key : α → Nat) : List α → Except PyError α
  | [] => .error .valueError
  | x :: xs => .ok (xs.foldl (maxStep key) x)

/-- Model of `claude_asyncio.py` line 109:
`max(results, key=lambda x: x.sequence_length)`. -/
def reduceResults (l : List CollatzResult) : Except PyError CollatzResult :=
  pyMaxKey (fun c => c.sequence_length) l

/-- ASCII whitespace stripped by Python's `int(str)` (`str.strip` set):
space, tab, newline, carriage return, vertical tab, form feed. -/
def isPyWS (c : Char) : Bool :=
  c = ' ' ∨ c = '\t' ∨ c = '\n' ∨ c = '\r' ∨ c = Char.ofNat 11 ∨ c = Char.ofNat 12

/-- Value of an ASCII decimal digit, `none` for any other character. -/
def digitVal (c : Char) : Option Nat :=
  if '0' ≤ c ∧ c ≤ '9' then some (c.toNat - '0'.toNat) else none

/-- Digits of a Python int literal after the first: digits, with single
underscores allowed strictly between digits. -/
def parseDigitsAux : Nat → List Char → Option Nat
  | acc, [] => some acc
  | acc, '_' :: c :: rest =>
    match digitVal c with
    | some d => parseDigitsAux (acc * 10 + d) rest
    | none => none
  | acc, c :: rest =>
    match digitVal c with
    | some d => parseDigitsAux (acc * 10 + d) rest
    | none => none

/-- Nonempty digit run of a Python int literal (must start with a digit). -/
def parseUnsignedDigits : List Char → Option Nat
  | [] => none
  | c :: rest =>
    match digitVal c with
    | some d => parseDigitsAux d rest
    | none => none

/-- Leading and trailing whitespace removal, as Python's `int` applies
before parsing. -/
def pyStrip (cs : List Char) : List Char :=
  ((cs.dropWhile isPyWS).reverse.dropWhile isPyWS).reverse

/-- Model of Python's `int(s)` on ASCII input (`claude_flask.py` line 44):
strip whitespace, optional single sign, then a nonempty digit run with
underscores only between digits; `none` models the `ValueError` that the
handler catches.  Non-ASCII digits and whitespace are outside the modelled
input space. -/
def pyParseInt (s : String) : Option Int :=
  match pyStrip s.data with
  | '+' :: rest => (parseUnsignedDigits rest).map (fun n => (n : Int))
  | '-' :: rest => (parseUnsignedDigits rest).map (fun n => -(n : Int))
  | cs => (parseUnsignedDigits cs).map (fun n => (n : Int))

/-- HTTP responses the `/collatz` handler can produce: `200` with the JSON
body `{"number": n, "sequence": [...]}`, or `400` with an error message. -/
inductive Response where
  | ok (number : Int) (sequence : List Int)
  | badRequest (error : String)
deriving DecidableEq, Repr

/-- Model of `claude_flask.py` lines 33-57 (`collatz_handler`).  The input
is `request.args.get("number")` (`none` when the query parameter is
absent).  `if not number_str` is Python falsiness: it fires on `none` and
on the empty string alike.  The success branch returns
`calculate_collatz`'s artifact; `none` only when that computation does not
finish within `fuel`. -/
def collatz_handler (fuel : Nat) (numberArg : Option String) : Option Response :=
  match numberArg with
  | none => some (.badRequest "Missing 'number' parameter")
  | some s =>
    if s = "" then some (.badRequest "Missing 'number' parameter")
    else
      match pyParseInt s with
      | none => some (.badRequest "Invalid number format")
      | some n =>
        if n ≤ 0 then some (.badRequest "Number must be positive")
        else (calculate_collatz fuel n).map (.ok n)

/-- The `WorkerStats` record of `claude_asyncio_w_worker_stats.py` lines
18-25.  `processing_time` (a Python float accumulating wall-clock seconds)
is modelled as an abstract duration count. -/
structure WorkerStats where
  numbers_processed : Nat
  total_sequence_length : Nat
  longest_sequence : Nat
  number_with_longest : Int
  processing_time : Nat
deriving DecidableEq, Repr

/-- The zero-initialised state of `WorkerStats.__init__`. -/
def WorkerStats.init : WorkerStats := ⟨0, 0, 0, 0, 0⟩

/-- Model of Python's true division `a / b` on integers: raises
`ZeroDivisionError` when `b = 0`, otherwise the quotient (modelled as the
exact rational; the claims about it concern totality and the formula, not
double rounding). -/
def pyTrueDiv (a b : Int) : Except PyError ℚ :=
  if b = 0 then .error .zeroDivisionError else .ok ((a : ℚ) / (b : ℚ))

/-- Model of the `avg_sequence_length` property
(`claude_asyncio_w_worker_stats.py` lines 27-33):
`total_sequence_length / numbers_processed if numbers_processed > 0 else 0`. -/
def WorkerStats.avg_sequence_length (st : WorkerStats) : Except PyError ℚ :=
  if st.numbers_processed > 0 then
    pyTrueDiv st.total_sequence_length st.numbers_processed
  else .ok 0

/-- Queue entries of the two `claude_asyncio*` pools: a work item (an
integer) or the `None` poison pill. -/
inductive QItem where
  | work (n : Int)
  | pill
deriving DecidableEq, Repr

/-- Observable effect of one pass through a worker's `while True` body on
one queue entry: what was appended to the shared results list, whether
`queue.task_done()` was called, which exception (if any) escaped the body,
and whether the loop exited normally via `break`. -/
structure IterEffect (ρ : Type) where
  appended : Option ρ
  taskDone : Bool
  raised : Option PyError
  stops : Bool
deriving DecidableEq, Repr

/-- Model of one iteration of `claude_asyncio.py` lines 41-64 (`worker`).
`backend` abstracts `get_collatz_sequence` (an HTTP round trip that raises
on a non-2xx status or a malformed body).  The whole body sits in
`try: ... except Exception:`, whose handler prints and still calls
`queue.task_done()`; `BaseException` (cancellation) is outside the model. -/
def workerIterAsyncio (backend : Int → Except PyError (List Int)) (item : QItem) :
    IterEffect CollatzResult :=
  match item with
  | .pill => ⟨none, true, none, true⟩
  | .work n =>
    match backend n with
    | .ok s => ⟨some ⟨n, s, s.length⟩, true, none, false⟩
    | .error _ => ⟨none, true, none, false⟩

/-- The `CollatzResult` dataclass of `claude_asyncio_w_worker_stats.py`
lines 11-16, which also records the worker id. -/
structure CollatzResultW where
  number : Int
  sequence : List Int
  sequence_length : Nat
  worker_id : Nat
deriving DecidableEq, Repr

/-- Model of one iteration of `claude_asyncio_w_worker_stats.py` lines
48-94 (`worker`), also threading the worker's own `WorkerStats` record;
`dt` is the wall-clock duration of the backend call.  On an exception the
`except` handler runs before any statistics update, so the record is
unchanged. -/
def workerIterStats (backend : Int → Except PyError (List Int)) (name : Nat) (dt : Nat)
    (item : QItem) (st : WorkerStats) : IterEffect CollatzResultW × WorkerStats :=
  match item with
  | .pill => (⟨none, true, none, true⟩, st)
  | .work n =>
    match backend n with
    | .ok s =>
      let st1 : WorkerStats :=
        { st with
          processing_time := st.processing_time + dt
          numbers_processed := st.numbers_processed + 1
          total_sequence_length := st.total_sequence_length + s.length }
      let st2 : WorkerStats :=
        if s.length > st1.longest_sequence then
          { st1 with longest_sequence := s.length, number_with_longest := n }
        else st1
      (⟨some ⟨n, s, s.length, name⟩, true, none, false⟩, st2)
    | .error _ => (⟨none, true, none, false⟩, st)

/-- First exception raised while running `for n in numbers: s = await seq(n)`
over a batch, `none` when every call succeeds. -/
def firstFailure (backend : Int → Except PyError (List Int)) : List Int → Option PyError
  | [] => none
  | n :: rest =>
    match backend n with
    | .ok _ => firstFailure backend rest
    | .error e => some e

/-- Model of one iteration of `async_collatz.py` lines 10-16 (`worker`):
the body takes a batch, runs `seq` on each element, and calls
`queue.task_done()` afterwards — with no `try`/`except`, so an exception
raised by any call escapes the loop before `task_done` is reached.
`backend` abstracts `await seq(n)`, which can raise (for instance
`OverflowError` from `int(x / 2)` on a value beyond the double range). -/
def workerIterBatch (backend : Int → Except PyError (List Int)) (batch : List Int) :
    IterEffect CollatzResult :=
  match firstFailure backend batch with
  | some e => ⟨none, false, some e, false⟩
  | none => ⟨none, true, none, false⟩

/-! ### Supporting lemmas -/

/-- Any list the Collatz loop returns starts at the input value and ends in
`1` (the loop appends until the last entry equals `1`, inclusively). -/
theorem collatzFrom_shape (step : Int → Int) :
    ∀ (fuel : Nat) (x : Int) (L : List Int), collatzFrom step fuel x = some L →
      ∃ t, L = x :: t ∧ L.getLast? = some 1 := by
  intro fuel
  induction fuel with
  | zero =>
    intro x L h
    simp only [collatzFrom] at h
    split at h
    · next hx =>
      cases h
      exact ⟨[], by simp [hx], by simp⟩
    · cases h
  | succ f ih =>
    intro x L h
    simp only [collatzFrom] at h
    split at h
    · next hx =>
      cases h
      exact ⟨[], by simp [hx], by simp⟩
    · next hx =>
      cases hin : collatzFrom step f (step x) with
      | none => rw [hin] at h; cases h
      | some L1 =>
        rw [hin] at h
        cases h
        obtain ⟨t1, hL1, hlast⟩ := ih (step x) L1 hin
        refine ⟨L1, rfl, ?_⟩
        rw [hL1] at hlast ⊢
        rw [List.getLast?_cons_cons]
        exact hlast

/-- The iterate of `pyStep` at `0` is `0`: `seq(0)` repeats `0` forever. -/
theorem pyStep_zero : pyStep 0 = 0 := by decide

/-- The `seq` loop started at `0` never reaches `1`, whatever the fuel. -/
theorem collatz_py_zero (fuel : Nat) : collatzFrom pyStep fuel 0 = none := by
  induction fuel with
  | zero => rfl
  | succ f ih => simp [collatzFrom, pyStep_zero, ih]

/-- The exact Collatz step keeps positive values positive. -/
theorem exactStep_pos {x : Int} (hx : 0 < x) : 0 < exactStep x := by
  unfold exactStep
  split <;> omega

/-- Below `2 ^ 54` the float halving of `seq` agrees with the exact halving
of `calculate_collatz`: the half fits in 53 bits, so the double is exact. -/
theorem pyStep_eq_exactStep {x : Int} (h1 : 0 < x) (h2 : x < 2 ^ 54) :
    pyStep x = exactStep x := by
  have h2' : x < 18014398509481984 := by norm_num at h2; exact h2
  unfold pyStep exactStep
  split
  · next heven =>
    unfold pydiv2
    have hm0 : 0 ≤ x / 2 := by omega
    rw [if_pos hm0]
    have hlt : (x / 2).toNat ≤ 2 ^ 53 := by norm_num; omega
    unfold pyFloatRound
    rw [if_pos hlt]
    omega
  · rfl

/-- Whenever the exact loop of `calculate_collatz` returns a list whose
entries all stay below `2 ^ 54`, the float-halving loop of `seq` returns
the same list. -/
theorem collatzFrom_py_of_exact :
    ∀ (fuel : Nat) (x : Int) (L : List Int), 0 < x →
      collatzFrom exactStep fuel x = some L → (∀ y ∈ L, y < 2 ^ 54) →
      collatzFrom pyStep fuel x = some L := by
  intro fuel
  induction fuel with
  | zero => intro x L _ h _; exact h
  | succ f ih =>
    intro x L hx h hb
    simp only [collatzFrom] at h ⊢
    by_cases hx1 : x = 1
    · rw [if_pos hx1] at h ⊢; exact h
    · rw [if_neg hx1] at h ⊢
      cases hin : collatzFrom exactStep f (exactStep x) with
      | none => rw [hin] at h; cases h
      | some L1 =>
        rw [hin] at h
        cases h
        have hxmem : x < 2 ^ 54 := hb x (List.mem_cons_self x L1)
        have hstep : pyStep x = exactStep x := pyStep_eq_exactStep hx hxmem
        have hrec : collatzFrom pyStep f (exactStep x) = some L1 :=
          ih (exactStep x) L1 (exactStep_pos hx) hin
            (fun y hy => hb y (List.mem_cons_of_mem _ hy))
        rw [hstep, hrec]
        rfl

/-- Decomposition of the left-to-right max scan: the fold result splits the
scanned list into a strict-smaller prefix, the result itself, and a
less-or-equal suffix — exactly "first element achieving the maximum". -/
theorem foldl_maxStep_decomp {α : Type} (key : α → Nat) :
    ∀ (xs : List α) (x : α), ∃ l1 l2,
      x :: xs = l1 ++ xs.foldl (maxStep key) x :: l2
      ∧ (∀ y ∈ l1, key y < key (xs.foldl (maxStep key) x))
      ∧ (∀ y ∈ l2, key y ≤ key (xs.foldl (maxStep key) x)) := by
  intro xs
  induction xs with
  | nil =>
    intro x
    exact ⟨[], [], rfl, by simp, by simp⟩
  | cons y ys ih =>
    intro x
    rw [List.foldl_cons]
    obtain ⟨l1, l2, hdec, hpre, hsuf⟩ := ih (maxStep key x y)
    have hall : ∀ z ∈ maxStep key x y :: ys,
        key z ≤ key (ys.foldl (maxStep key) (maxStep key x y)) := by
      intro z hz
      rw [hdec] at hz
      rcases List.mem_append.mp hz with h1 | h2
      · exact le_of_lt (hpre z h1)
      · rcases List.mem_cons.mp h2 with rfl | h3
        · exact le_refl _
        · exact hsuf z h3
    by_cases hxy : key x < key y
    · have hms : maxStep key x y = y := if_pos hxy
      rw [hms] at hdec hall hpre hsuf ⊢
      refine ⟨x :: l1, l2, ?_, ?_, hsuf⟩
      · rw [List.cons_append, ← hdec]
      · intro z hz
        rcases List.mem_cons.mp hz with rfl | h1
        · exact lt_of_lt_of_le hxy (hall y (List.mem_cons_self y ys))
        · exact hpre z h1
    · have hms : maxStep key x y = x := if_neg hxy
      rw [hms] at hdec hall hpre hsuf ⊢
      cases l1 with
      | nil =>
        simp only [List.nil_append, List.cons.injEq] at hdec
        obtain ⟨hdx, hdys⟩ := hdec
        refine ⟨[], y :: ys, ?_, by simp, ?_⟩
        · simp [← hdx]
        · intro z hz
          rcases List.mem_cons.mp hz with rfl | h1
          · rw [← hdx]; omega
          · exact hsuf z (hdys ▸ h1)
      | cons a t =>
        simp only [List.cons_append, List.cons.injEq] at hdec
        obtain ⟨hax, hdys⟩ := hdec
        refine ⟨x :: y :: t, l2, ?_, ?_, hsuf⟩
        · rw [List.cons_append, List.cons_append, ← hdys]
        · intro z hz
          have hxlt : key x < key (ys.foldl (maxStep key) x) := by
            have := hpre a (List.mem_cons_self a t)
            rwa [← hax] at this
          rcases List.mem_cons.mp hz with rfl | h1
          · exact hxlt
          · rcases List.mem_cons.mp h1 with rfl | h2
            · omega
            · exact hpre z (List.mem_cons_of_mem a h2)

/-! ### Claims -/

/-- C1, counterexample: the local variant `seq` and the remote computation
`calculate_collatz` do not agree for every positive input.  At
`n = 2 ^ 54 + 2 = 18014398509481986` the half `2 ^ 53 + 1` is not
representable as a double: `seq`'s `int(x / 2)` rounds it to `2 ^ 53`
while `calculate_collatz`'s `x // 2` yields `2 ^ 53 + 1`, so the two
artifact sequences differ from the second element on. -/
theorem seq_calc_divergence :
    (¬ ∀ (fuel : Nat) (n : Int), 0 < n → seq fuel n = calculate_collatz fuel n) ∧
      pyStep 18014398509481986 = 9007199254740992 ∧
      exactStep 18014398509481986 = 9007199254740993 := by
  refine ⟨fun h => ?_, by decide, by decide⟩
  have h1 := h 60 18014398509481986 (by decide)
  have h2 : seq 60 18014398509481986 ≠ calculate_collatz 60 18014398509481986 := by decide
  exact h2 h1

/-- C1 (amended): for every positive `n`, whenever `calculate_collatz`
produces an artifact all of whose elements stay below `2 ^ 54`, `seq`
produces exactly the same artifact, element for element (the float halving
is exact below that bound). -/
theorem seq_eq_calc_of_bounded (fuel : Nat) (n : Int) (L : List Int) (hn : 0 < n)
    (h : calculate_collatz fuel n = some L) (hb : ∀ y ∈ L, y < 2 ^ 54) :
    seq fuel n = some L := by
  unfold calculate_collatz at h
  rw [if_neg (by omega)] at h
  exact collatzFrom_py_of_exact fuel n L hn h hb

/-- Witness for C1 (amended) at `n = 6`. -/
theorem seq_eq_calc_of_bounded_witness :
    (0 : Int) < 6 ∧ calculate_collatz 10 6 = some [6, 3, 10, 5, 16, 8, 4, 2, 1] ∧
      (∀ y ∈ ([6, 3, 10, 5, 16, 8, 4, 2, 1] : List Int), y < 2 ^ 54) ∧
      seq 10 6 = some [6, 3, 10, 5, 16, 8, 4, 2, 1] :=
  ⟨by decide, by decide, by decide,
    seq_eq_calc_of_bounded 10 6 _ (by decide) (by decide) (by decide)⟩

/-- C3, counterexample: at `n = 0` the local variant does not fail with any
error — it never terminates at all (the trajectory is constant `0`), while
`calculate_collatz` returns the non-error value `[]`. -/
theorem seq_nonpositive_counterexample :
    (¬ seqTerminates 0) ∧ calculate_collatz 10 0 = some [] := by
  constructor
  · rintro ⟨fuel, L, h⟩
    simp only [seq] at h
    rw [collatz_py_zero] at h
    exact Option.noConfusion h
  · rfl

/-- C3 (amended): the local compute variant performs no input validation
for `n ≤ 0`: `seq(0)` never terminates (for every fuel it is still
running), and `calculate_collatz` returns the non-error value `[]` for
every `n ≤ 0`; no `InvalidInput` failure exists. -/
theorem seq_nonpositive_behavior :
    (¬ seqTerminates 0) ∧
      ∀ (fuel : Nat) (n : Int), n ≤ 0 → calculate_collatz fuel n = some [] := by
  constructor
  · rintro ⟨fuel, L, h⟩
    simp only [seq] at h
    rw [collatz_py_zero] at h
    exact Option.noConfusion h
  · intro fuel n hn
    unfold calculate_collatz
    rw [if_pos hn]

/-- Witness for C3 (amended) at `n = -5`. -/
theorem seq_nonpositive_behavior_witness :
    ((-5 : Int) ≤ 0) ∧ calculate_collatz 7 (-5) = some [] :=
  ⟨by decide, seq_nonpositive_behavior.2 7 (-5) (by decide)⟩

/-- C4, counterexample: with zero successful results the aggregation does
not fail with an `EmptyResultSet` error: `longest_collatz(0)` returns the
non-error sentinel `Result(0, [])`, and the asyncio reduction raises
`ValueError` (from `max` on an empty sequence), an unrelated exception. -/
theorem empty_aggregation_counterexample :
    longest_collatz 5 0 = some ⟨0, []⟩ ∧
      reduceResults [] = .error .valueError := ⟨rfl, rfl⟩

/-- C4 (amended): when the set of successful results is empty, the local
aggregation returns the sentinel `Result(0, [])` (a non-error value, for
any fuel) and the asyncio aggregation raises `ValueError` from `max` on an
empty sequence; no `EmptyResultSet` error exists in the code. -/
theorem empty_aggregation_behavior :
    (∀ fuel : Nat, longest_collatz fuel 0 = some ⟨0, []⟩) ∧
      reduceResults [] = .error .valueError := ⟨fun _ => rfl, rfl⟩

/-- C5, counterexample: the `async_collatz.py` worker has no `try`/`except`
around its body, so a failing backend invocation (here an `OverflowError`
from the batch item) escapes the worker loop and `queue.task_done()` is
never called for that batch. -/
theorem worker_isolation_counterexample :
    (workerIterBatch (fun _ => .error .overflowError) [1]).raised =
        some .overflowError ∧
      (workerIterBatch (fun _ => .error .overflowError) [1]).taskDone = false :=
  ⟨rfl, rfl⟩

/-- C5 (amended): in the `claude_asyncio.py` and
`claude_asyncio_w_worker_stats.py` workers, a failing backend invocation is
caught inside the loop: nothing escapes, the loop continues, nothing is
appended, the statistics are unchanged, and `queue.task_done()` is still
called.  The `async_collatz.py` worker has no error handling: the same
failure escapes its loop and `task_done` is not reached. -/
theorem worker_error_isolation (backend : Int → Except PyError (List Int))
    (name : Nat) (dt : Nat) (st : WorkerStats) (n : Int) (e : PyError)
    (h : backend n = .error e) :
    ((workerIterAsyncio backend (.work n)).raised = none
      ∧ (workerIterAsyncio backend (.work n)).taskDone = true
      ∧ (workerIterAsyncio backend (.work n)).stops = false
      ∧ (workerIterAsyncio backend (.work n)).appended = none)
    ∧ ((workerIterStats backend name dt (.work n) st).1.raised = none
      ∧ (workerIterStats backend name dt (.work n) st).1.taskDone = true
      ∧ (workerIterStats backend name dt (.work n) st).1.stops = false
      ∧ (workerIterStats backend name dt (.work n) st).1.appended = none
      ∧ (workerIterStats backend name dt (.work n) st).2 = st)
    ∧ ((workerIterBatch backend [n]).raised = some e
      ∧ (workerIterBatch backend [n]).taskDone = false) := by
  simp [workerIterAsyncio, workerIterStats, workerIterBatch, firstFailure, h]

/-- Witness for C5 (amended) with a backend that fails on every item. -/
theorem worker_error_isolation_witness :
    ((fun _ : Int => (Except.error PyError.httpError : Except PyError (List Int))) 3 =
        Except.error PyError.httpError)
      ∧ (workerIterAsyncio (fun _ => .error .httpError) (.work 3)).raised = none
      ∧ (workerIterBatch (fun _ => .error .httpError) [3]).taskDone = false :=
  ⟨rfl,
    (worker_error_isolation (fun _ => .error .httpError) 0 0 WorkerStats.init 3
      PyError.httpError rfl).1.1,
    (worker_error_isolation (fun _ => .error .httpError) 0 0 WorkerStats.init 3
      PyError.httpError rfl).2.2.2⟩

/-- C6 (confirmed): the argmax reduction over a non-empty list of results
returns a result that occurs in the list, whose artifact length is maximal,
and that is the first-seen maximum: the list splits into a prefix of
strictly smaller lengths, the returned result, and a suffix of lengths not
exceeding it — exactly a left-to-right scan replacing only on strictly
greater length. -/
theorem argmax_reduce_spec (l : List CollatzResult) (r : CollatzResult)
    (h : reduceResults l = .ok r) :
    r ∈ l ∧ (∀ y ∈ l, y.sequence_length ≤ r.sequence_length) ∧
      ∃ l1 l2, l = l1 ++ r :: l2
        ∧ (∀ y ∈ l1, y.sequence_length < r.sequence_length)
        ∧ (∀ y ∈ l2, y.sequence_length ≤ r.sequence_length) := by
  cases l with
  | nil => exact absurd h (by simp [reduceResults, pyMaxKey])
  | cons x xs =>
    have hr : xs.foldl (maxStep (fun c => c.sequence_length)) x = r := by
      simpa [reduceResults, pyMaxKey] using h
    obtain ⟨l1, l2, hdec, hpre, hsuf⟩ :=
      foldl_maxStep_decomp (fun c => c.sequence_length) xs x
    rw [hr] at hdec hpre hsuf
    refine ⟨?_, ?_, l1, l2, hdec, hpre, hsuf⟩
    · rw [hdec]
      exact List.mem_append_right l1 (List.mem_cons_self r l2)
    · intro z hz
      rw [hdec] at hz
      rcases List.mem_append.mp hz with h1 | h2
      · exact le_of_lt (hpre z h1)
      · rcases List.mem_cons.mp h2 with rfl | h3
        · exact le_refl _
        · exact hsuf z h3

/-- Witness for C6 on a list with a tie: the first of the two longest
results is returned. -/
theorem argmax_reduce_spec_witness :
    reduceResults [⟨1, [1], 1⟩, ⟨2, [2, 1], 2⟩, ⟨4, [4, 2], 2⟩] =
        .ok ⟨2, [2, 1], 2⟩ ∧
      (⟨2, [2, 1], 2⟩ : CollatzResult) ∈
        ([⟨1, [1], 1⟩, ⟨2, [2, 1], 2⟩, ⟨4, [4, 2], 2⟩] : List CollatzResult) :=
  ⟨rfl, (argmax_reduce_spec [⟨1, [1], 1⟩, ⟨2, [2, 1], 2⟩, ⟨4, [4, 2], 2⟩]
    ⟨2, [2, 1], 2⟩ rfl).1⟩

/-- C7 (confirmed): the argmax reduction over `seq` applied to `1 .. 20`
returns item `18` with the 21-element artifact of the test
`test_collatz.py::test_longest`. -/
theorem longest_collatz_20 :
    longest_collatz 64 20 = some ⟨18, [18, 9, 28, 14, 7, 22, 11, 34, 17, 52, 26,
      13, 40, 20, 10, 5, 16, 8, 4, 2, 1]⟩ := by decide

/-- C8 (confirmed): `seq 5` returns exactly `[5, 16, 8, 4, 2, 1]`
(`test_collatz.py::test_5`). -/
theorem seq_five : seq 8 5 = some [5, 16, 8, 4, 2, 1] := by decide

/-- C9, counterexample: a present-but-empty `number` parameter is
non-numeric (Python's `int("")` raises `ValueError`), yet the handler's
`if not number_str` falsiness check fires first, so the response is
`Missing 'number' parameter` instead of `Invalid number format`. -/
theorem handler_empty_param_counterexample :
    pyParseInt "" = none ∧
      collatz_handler 5 (some "") = some (.badRequest "Missing 'number' parameter") ∧
      collatz_handler 5 (some "") ≠ some (.badRequest "Invalid number format") := by
  refine ⟨rfl, rfl, by decide⟩

/-- C9 (amended): the `/collatz` handler returns `Missing 'number'
parameter` when the parameter is absent or present but empty; `Invalid
number format` when it is present, nonempty and non-numeric; `Number must
be positive` when it parses to an integer `n ≤ 0`; and the `200` body
`{"number": n, "sequence": [...]}` with `calculate_collatz`'s artifact when
it parses to a positive integer. -/
theorem collatz_handler_spec (fuel : Nat) :
    collatz_handler fuel none = some (.badRequest "Missing 'number' parameter") ∧
    collatz_handler fuel (some "") = some (.badRequest "Missing 'number' parameter") ∧
    (∀ s : String, s ≠ "" → pyParseInt s = none →
      collatz_handler fuel (some s) = some (.badRequest "Invalid number format")) ∧
    (∀ (s : String) (n : Int), pyParseInt s = some n → n ≤ 0 →
      collatz_handler fuel (some s) = some (.badRequest "Number must be positive")) ∧
    (∀ (s : String) (n : Int) (L : List Int), pyParseInt s = some n → 0 < n →
      calculate_collatz fuel n = some L →
      collatz_handler fuel (some s) = some (.ok n L)) := by
  refine ⟨rfl, rfl, ?_, ?_, ?_⟩
  · intro s hs hp
    simp [collatz_handler, hs, hp]
  · intro s n hp hn
    have hs : s ≠ "" := by
      intro h
      rw [h] at hp
      exact Option.noConfusion ((rfl : pyParseInt "" = none) ▸ hp)
    simp [collatz_handler, hs, hp, hn]
  · intro s n L hp hn hc
    have hs : s ≠ "" := by
      intro h
      rw [h] at hp
      exact Option.noConfusion ((rfl : pyParseInt "" = none) ▸ hp)
    have hn' : ¬ n ≤ 0 := by omega
    simp [collatz_handler, hs, hp, hn', hc]

/-- Witness for C9 (amended): a non-numeric parameter and a positive one. -/
theorem collatz_handler_spec_witness :
    pyParseInt "abc" = none ∧ pyParseInt "5" = some 5 ∧
      calculate_collatz 10 5 = some [5, 16, 8, 4, 2, 1] ∧
      collatz_handler 10 (some "abc") = some (.badRequest "Invalid number format") ∧
      collatz_handler 10 (some "5") = some (.ok 5 [5, 16, 8, 4, 2, 1]) :=
  ⟨rfl, rfl, by decide,
    (collatz_handler_spec 10).2.2.1 "abc" (by decide) rfl,
    (collatz_handler_spec 10).2.2.2.2 "5" 5 [5, 16, 8, 4, 2, 1] rfl (by decide)
      (by decide)⟩

/-- C10 (confirmed): `avg_sequence_length` is total on every `WorkerStats`
value: it never raises `ZeroDivisionError`, returning `0` when
`numbers_processed = 0` and the quotient
`total_sequence_length / numbers_processed` otherwise. -/
theorem avg_sequence_length_total (st : WorkerStats) :
    st.avg_sequence_length =
      .ok (if st.numbers_processed = 0 then 0
        else (st.total_sequence_length : ℚ) / (st.numbers_processed : ℚ)) := by
  unfold WorkerStats.avg_sequence_length pyTrueDiv
  by_cases h : st.numbers_processed = 0
  · simp [h]
  · have h0 : 0 < st.numbers_processed := Nat.pos_of_ne_zero h
    have h1 : ¬ ((st.numbers_processed : Int) = 0) := by exact_mod_cast h
    rw [if_pos h0, if_neg h1, if_neg h]
    norm_num
